import Mathlib

/-!
Shallow embedding of the carotid IMT segmentation inference service
(`src/api/main.py`): the U-Net layer primitives and assembly, the
preprocessing pipeline, the sigmoid/threshold postprocessing, the overlay
compositing, and the request boundary of the prediction endpoints.
-/

namespace CarotidSeg

/-! ### Images (decoded RGB rasters) and configuration constants
`IMG_SIZE`, `IMG_MEAN`, `IMG_STD` are the configuration of
`src/api/main.py` lines 83-85.  An `Img` is a decoded RGB image in
height-width-channel order; pixel values carry the 8-bit range 0..255 as
exact rationals. -/

structure Img where
  height : ℕ
  width : ℕ
  pix : ℕ → ℕ → ℕ → ℚ

def uniformImg (h w : ℕ) (v : ℚ) : Img :=
  ⟨h, w, fun _ _ _ => v⟩

def IMG_SIZE : ℕ := 128

def IMG_MEAN : List ℚ := [0.485, 0.456, 0.406]

def IMG_STD : List ℚ := [0.229, 0.224, 0.225]

/-! ### Bilinear resize (`T.Resize((IMG_SIZE, IMG_SIZE))`, line 103, and
`image.resize(..., Image.BILINEAR)`, lines 164 and 182).
Half-pixel-centre source coordinates; the four neighbouring samples are
clamped to the image border and combined with the bilinear weights. -/

def srcCoord (n side j : ℕ) : ℚ :=
  (((j : ℚ) + 1/2) * n) / side - 1/2

def clampIdx (n : ℕ) (z : ℤ) : ℕ :=
  min (max z 0).toNat (n - 1)

def resizeBilinear (img : Img) (side : ℕ) : Img :=
  ⟨side, side, fun i j c =>
    let y : ℚ := srcCoord img.height side i
    let x : ℚ := srcCoord img.width side j
    let y0 : ℤ := ⌊y⌋
    let x0 : ℤ := ⌊x⌋
    let dy : ℚ := y - y0
    let dx : ℚ := x - x0
    let p : ℤ → ℤ → ℚ := fun a b => img.pix (clampIdx img.height a) (clampIdx img.width b) c
    (1 - dy) * ((1 - dx) * p y0 x0 + dx * p y0 (x0 + 1))
      + dy * ((1 - dx) * p (y0 + 1) x0 + dx * p (y0 + 1) (x0 + 1))⟩

/-! ### Tensors in channel-height-width order -/

structure Ten (α : Type) where
  c : ℕ
  h : ℕ
  w : ℕ
  val : ℕ → ℕ → ℕ → α

/-- `T.ToTensor()` (line 104): HWC 8-bit image to CHW float tensor in [0,1]. -/
def toTensorChw (img : Img) : Ten ℚ :=
  ⟨3, img.height, img.width, fun c i j => img.pix i j c / 255⟩

/-- `T.Normalize(mean=IMG_MEAN, std=IMG_STD)` (line 105). -/
def normalizeChw (t : Ten ℚ) : Ten ℚ :=
  ⟨t.c, t.h, t.w, fun c i j => (t.val c i j - IMG_MEAN.getD c 0) / IMG_STD.getD c 0⟩

/-- The `preprocess` pipeline of lines 102-106: resize, to-tensor, normalize. -/
def preprocessChw (img : Img) : Ten ℚ :=
  normalizeChw (toTensorChw (resizeBilinear img IMG_SIZE))

/-! ### Sigmoid and threshold postprocessing (lines 137-138 and 152-153) -/

noncomputable def sigmoid (x : ℝ) : ℝ :=
  1 / (1 + Real.exp (-x))

/-- `(torch.sigmoid(outputs) > 0.5).float()` at one pixel. -/
noncomputable def thresholdMask (x : ℝ) : ℝ :=
  if sigmoid x > 0.5 then 1 else 0

/-! ### Layer primitives (lines 11-50).
Trained parameters are function-valued so the embedding is parametric in
the loaded weights.  Operations that torch rejects on a channel-count
mismatch return `none`. -/

structure ConvP where
  weight : ℕ → ℕ → ℕ → ℕ → ℝ
  bias : ℕ → ℝ

structure BnP where
  gamma : ℕ → ℝ
  beta : ℕ → ℝ
  runMean : ℕ → ℝ
  runVar : ℕ → ℝ

/-- Sample a tensor at possibly out-of-range integer coordinates,
yielding the zero padding value outside the spatial extent. -/
def Ten.aval (x : Ten ℝ) (c : ℕ) (i j : ℤ) : ℝ :=
  if 0 ≤ i ∧ i < (x.h : ℤ) ∧ 0 ≤ j ∧ j < (x.w : ℤ) then x.val c i.toNat j.toNat else 0

/-- `torch.nn.Conv2d(inCh, outCh, kernel_size=k, padding=pad)` (stride 1). -/
def conv2d (inCh outCh k pad : ℕ) (p : ConvP) (x : Ten ℝ) : Option (Ten ℝ) :=
  if x.c = inCh then
    some ⟨outCh, x.h + 2 * pad + 1 - k, x.w + 2 * pad + 1 - k, fun o i j =>
      p.bias o + ∑ ci ∈ Finset.range inCh, ∑ ki ∈ Finset.range k, ∑ kj ∈ Finset.range k,
        p.weight o ci ki kj * x.aval ci ((i : ℤ) + ki - pad) ((j : ℤ) + kj - pad)⟩
  else none

/-- `torch.nn.BatchNorm2d` in inference mode (running statistics, eps 1e-5). -/
noncomputable def batchNorm (nCh : ℕ) (p : BnP) (x : Ten ℝ) : Option (Ten ℝ) :=
  if x.c = nCh then
    some ⟨x.c, x.h, x.w, fun c i j =>
      (x.val c i j - p.runMean c) / Real.sqrt (p.runVar c + 1 / 100000) * p.gamma c + p.beta c⟩
  else none

/-- `torch.nn.ReLU(inplace=True)`. -/
noncomputable def relu (x : Ten ℝ) : Ten ℝ :=
  ⟨x.c, x.h, x.w, fun c i j => max (x.val c i j) 0⟩

/-- `torch.nn.MaxPool2d(kernel_size=2)`: floor-halved spatial size, max over
each non-overlapping 2x2 window. -/
noncomputable def maxPool2 (x : Ten ℝ) : Ten ℝ :=
  ⟨x.c, x.h / 2, x.w / 2, fun c i j =>
    max (max (x.val c (2 * i) (2 * j)) (x.val c (2 * i) (2 * j + 1)))
        (max (x.val c (2 * i + 1) (2 * j)) (x.val c (2 * i + 1) (2 * j + 1)))⟩

/-- `torch.nn.ConvTranspose2d(inCh, outCh, kernel_size=2, stride=2)`: exactly
doubles the spatial size; output position (i, j) receives the single
contribution of input position (i/2, j/2) through kernel tap (i%2, j%2). -/
def convTranspose2 (inCh outCh : ℕ) (p : ConvP) (x : Ten ℝ) : Option (Ten ℝ) :=
  if x.c = inCh then
    some ⟨outCh, 2 * x.h, 2 * x.w, fun o i j =>
      p.bias o + ∑ ci ∈ Finset.range inCh,
        p.weight ci o (i % 2) (j % 2) * x.val ci (i / 2) (j / 2)⟩
  else none

/-- `torch.nn.functional.pad(x, [l, r, t, b])` with zero fill; negative
amounts crop, as in torch. -/
def padT (l r t b : ℤ) (x : Ten ℝ) : Ten ℝ :=
  ⟨x.c, ((x.h : ℤ) + t + b).toNat, ((x.w : ℤ) + l + r).toNat, fun c i j =>
    x.aval c ((i : ℤ) - t) ((j : ℤ) - l)⟩

/-- `torch.cat([a, b], dim=1)`: channel concatenation of two tensors with
identical spatial extents. -/
def catT (a b : Ten ℝ) : Option (Ten ℝ) :=
  if a.h = b.h ∧ a.w = b.w then
    some ⟨a.c + b.c, a.h, a.w, fun c i j =>
      if c < a.c then a.val c i j else b.val (c - a.c) i j⟩
  else none

/-! ### Composite blocks (lines 11-50) -/

structure DoubleConvP where
  conv1 : ConvP
  bn1 : BnP
  conv2 : ConvP
  bn2 : BnP

/-- `DoubleConv` module: its constructor arguments (lines 11-21) plus the
trained parameters of its two conv/batchnorm pairs. -/
structure DoubleConvM where
  inCh : ℕ
  outCh : ℕ
  par : DoubleConvP

def DoubleConvM.init (i o : ℕ) (p : DoubleConvP) : DoubleConvM :=
  ⟨i, o, p⟩

/-- `DoubleConv.forward` (lines 23-24): conv3x3 → batchnorm → relu, twice. -/
noncomputable def DoubleConvM.forward (m : DoubleConvM) (x : Ten ℝ) : Option (Ten ℝ) := do
  let a ← conv2d m.inCh m.outCh 3 1 m.par.conv1 x
  let a ← batchNorm m.outCh m.par.bn1 a
  let a := relu a
  let b ← conv2d m.outCh m.outCh 3 1 m.par.conv2 a
  let b ← batchNorm m.outCh m.par.bn2 b
  return relu b

/-- `EncoderBlock` (lines 26-35): maxpool then DoubleConv. -/
structure EncoderBlockM where
  dc : DoubleConvM

def EncoderBlockM.init (i o : ℕ) (p : DoubleConvP) : EncoderBlockM :=
  ⟨DoubleConvM.init i o p⟩

noncomputable def EncoderBlockM.forward (m : EncoderBlockM) (x : Ten ℝ) : Option (Ten ℝ) :=
  m.dc.forward (maxPool2 x)

structure DecoderP where
  up : ConvP
  dc : DoubleConvP

/-- `DecoderBlock` module (lines 37-41): transposed convolution plus
DoubleConv, with the constructor channel arguments. -/
structure DecoderBlockM where
  inCh : ℕ
  outCh : ℕ
  upPar : ConvP
  dc : DoubleConvM

def DecoderBlockM.init (i o : ℕ) (p : DecoderP) : DecoderBlockM :=
  ⟨i, o, p.up, DoubleConvM.init i o p.dc⟩

/-- Lines 45-48 of `DecoderBlock.forward`: when the upsampled tensor and the
skip tensor disagree spatially, pad the upsampled tensor by
`[diff_x // 2, diff_x - diff_x // 2, diff_y // 2, diff_y - diff_y // 2]`
(python floor division, i.e. `Int.fdiv`). -/
def reconcileSkip (x skip : Ten ℝ) : Ten ℝ :=
  if x.h = skip.h ∧ x.w = skip.w then x
  else
    let dy : ℤ := (skip.h : ℤ) - (x.h : ℤ)
    let dx : ℤ := (skip.w : ℤ) - (x.w : ℤ)
    padT (dx.fdiv 2) (dx - dx.fdiv 2) (dy.fdiv 2) (dy - dy.fdiv 2) x

/-- `DecoderBlock.forward` (lines 43-50): upsample, reconcile sizes,
concatenate `[skip, x]` on the channel axis, DoubleConv. -/
noncomputable def DecoderBlockM.forward (m : DecoderBlockM) (x skip : Ten ℝ) :
    Option (Ten ℝ) := do
  let u ← convTranspose2 m.inCh m.outCh m.upPar x
  let merged ← catT skip (reconcileSkip u skip)
  m.dc.forward merged

/-! ### The U-Net (lines 52-76) -/

/-- The final `torch.nn.Conv2d(base_channels, out_channels, kernel_size=1)`. -/
structure OutConvM where
  inCh : ℕ
  outCh : ℕ
  k : ℕ
  par : ConvP

structure UNetP where
  inc : DoubleConvP
  d1 : DoubleConvP
  d2 : DoubleConvP
  d3 : DoubleConvP
  d4 : DoubleConvP
  u1 : DecoderP
  u2 : DecoderP
  u3 : DecoderP
  u4 : DecoderP
  outc : ConvP

structure UNetM where
  inc : DoubleConvM
  down1 : EncoderBlockM
  down2 : EncoderBlockM
  down3 : EncoderBlockM
  down4 : EncoderBlockM
  up1 : DecoderBlockM
  up2 : DecoderBlockM
  up3 : DecoderBlockM
  up4 : DecoderBlockM
  outc : OutConvM

/-- `UNet.__init__(in_channels, out_channels, base_channels)` (lines 53-64). -/
def UNetM.init (inC outC base : ℕ) (θ : UNetP) : UNetM where
  inc := DoubleConvM.init inC base θ.inc
  down1 := EncoderBlockM.init base (base * 2) θ.d1
  down2 := EncoderBlockM.init (base * 2) (base * 4) θ.d2
  down3 := EncoderBlockM.init (base * 4) (base * 8) θ.d3
  down4 := EncoderBlockM.init (base * 8) (base * 16) θ.d4
  up1 := DecoderBlockM.init (base * 16) (base * 8) θ.u1
  up2 := DecoderBlockM.init (base * 8) (base * 4) θ.u2
  up3 := DecoderBlockM.init (base * 4) (base * 2) θ.u3
  up4 := DecoderBlockM.init (base * 2) base θ.u4
  outc := ⟨base, outC, 1, θ.outc⟩

/-- `UNet.forward` (lines 66-76): stem, four encoder stages, four decoder
stages consuming the encoder outputs as skips deepest-first, 1x1 output
convolution. -/
noncomputable def UNetM.forward (m : UNetM) (x : Ten ℝ) : Option (Ten ℝ) := do
  let x1 ← m.inc.forward x
  let x2 ← m.down1.forward x1
  let x3 ← m.down2.forward x2
  let x4 ← m.down3.forward x3
  let x5 ← m.down4.forward x4
  let y1 ← m.up1.forward x5 x4
  let y2 ← m.up2.forward y1 x3
  let y3 ← m.up3.forward y2 x2
  let y4 ← m.up4.forward y3 x1
  conv2d m.outc.inCh m.outc.outCh m.outc.k 0 m.outc.par y4

/-! ### Shape-level semantics of the same layers.
`dims` projects a tensor to its (channels, height, width) triple; each
`...Shape` function is the action of the corresponding layer on that triple,
used to track the channel/spatial schedule of the assembled network. -/

def dims (t : Ten ℝ) : ℕ × ℕ × ℕ :=
  (t.c, t.h, t.w)

def conv2dShape (inCh outCh k pad : ℕ) (s : ℕ × ℕ × ℕ) : Option (ℕ × ℕ × ℕ) :=
  if s.1 = inCh then some (outCh, s.2.1 + 2 * pad + 1 - k, s.2.2 + 2 * pad + 1 - k)
  else none

def bnShape (nCh : ℕ) (s : ℕ × ℕ × ℕ) : Option (ℕ × ℕ × ℕ) :=
  if s.1 = nCh then some s else none

def maxPool2Shape (s : ℕ × ℕ × ℕ) : ℕ × ℕ × ℕ :=
  (s.1, s.2.1 / 2, s.2.2 / 2)

def convTranspose2Shape (inCh outCh : ℕ) (s : ℕ × ℕ × ℕ) : Option (ℕ × ℕ × ℕ) :=
  if s.1 = inCh then some (outCh, 2 * s.2.1, 2 * s.2.2) else none

def reconcileShape (s k : ℕ × ℕ × ℕ) : ℕ × ℕ × ℕ :=
  if s.2.1 = k.2.1 ∧ s.2.2 = k.2.2 then s
  else
    let dy : ℤ := (k.2.1 : ℤ) - (s.2.1 : ℤ)
    let dx : ℤ := (k.2.2 : ℤ) - (s.2.2 : ℤ)
    (s.1, ((s.2.1 : ℤ) + dy.fdiv 2 + (dy - dy.fdiv 2)).toNat,
      ((s.2.2 : ℤ) + dx.fdiv 2 + (dx - dx.fdiv 2)).toNat)

def catShape (a b : ℕ × ℕ × ℕ) : Option (ℕ × ℕ × ℕ) :=
  if a.2.1 = b.2.1 ∧ a.2.2 = b.2.2 then some (a.1 + b.1, a.2.1, a.2.2) else none

def doubleConvShape (i o : ℕ) (s : ℕ × ℕ × ℕ) : Option (ℕ × ℕ × ℕ) := do
  let a1 ← conv2dShape i o 3 1 s
  let a2 ← bnShape o a1
  let b1 ← conv2dShape o o 3 1 a2
  bnShape o b1

def encShape (i o : ℕ) (s : ℕ × ℕ × ℕ) : Option (ℕ × ℕ × ℕ) :=
  doubleConvShape i o (maxPool2Shape s)

def decShape (upIn upOut dcIn dcOut : ℕ) (x k : ℕ × ℕ × ℕ) : Option (ℕ × ℕ × ℕ) := do
  let u ← convTranspose2Shape upIn upOut x
  let m ← catShape k (reconcileShape u k)
  doubleConvShape dcIn dcOut m

/-- The channel/spatial schedule of `UNet.forward` (lines 66-76). -/
def unetShape (inC outC base : ℕ) (s : ℕ × ℕ × ℕ) : Option (ℕ × ℕ × ℕ) := do
  let s1 ← doubleConvShape inC base s
  let s2 ← encShape base (base * 2) s1
  let s3 ← encShape (base * 2) (base * 4) s2
  let s4 ← encShape (base * 4) (base * 8) s3
  let s5 ← encShape (base * 8) (base * 16) s4
  let t1 ← decShape (base * 16) (base * 8) (base * 16) (base * 8) s5 s4
  let t2 ← decShape (base * 8) (base * 4) (base * 8) (base * 4) t1 s3
  let t3 ← decShape (base * 4) (base * 2) (base * 4) (base * 2) t2 s2
  let t4 ← decShape (base * 2) base (base * 2) base t3 s1
  conv2dShape base outC 1 0 t4

/-! ### Inference pipeline and endpoints (lines 120-197) -/

def castTen (t : Ten ℚ) : Ten ℝ :=
  ⟨t.c, t.h, t.w, fun c i j => ((t.val c i j : ℚ) : ℝ)⟩

/-- `predict_mask_from_image` (lines 148-154): preprocess, forward pass under
`no_grad`, sigmoid, strict threshold at 0.5, to float mask. -/
noncomputable def predictMaskFromImage (M : UNetM) (img : Img) : Option (Ten ℝ) :=
  (M.forward (castTen (preprocessChw img))).map fun t =>
    ⟨t.c, t.h, t.w, fun c i j => thresholdMask (t.val c i j)⟩

/-- An upload request as seen by the core: the declared content type and the
result of decoding the uploaded bytes (`none` models bytes PIL cannot decode). -/
structure UploadReq where
  contentType : String
  decoded : Option Img

/-- `file.content_type.startswith('image/')` (lines 122, 158, 176): the
declared content type begins with the characters `image/`. -/
def isImageType (ct : String) : Bool :=
  "image/".data.isPrefixOf ct.data

inductive ApiResult where
  | success (shape : ℕ × ℕ × ℕ) (mask : Ten ℝ)
  | failure (statusCode : ℕ) (detail : String)

/-- `predict_segmentation` (lines 120-146): reject non-image content types
with a 400 before any computation; run the pipeline inside try/except,
turning any decode or shape failure into a 500 response; the loaded model is
returned untouched. -/
noncomputable def predictSegmentation (M : UNetM) (req : UploadReq) : ApiResult × UNetM :=
  if isImageType req.contentType then
    match req.decoded with
    | none => (ApiResult.failure 500 "Prediction failed", M)
    | some img =>
      match predictMaskFromImage M img with
      | none => (ApiResult.failure 500 "Prediction failed", M)
      | some mask => (ApiResult.success (mask.c, mask.h, mask.w) mask, M)
  else
    (ApiResult.failure 400 "Invalid file type. Please upload an image.", M)

/-- The mask computed by the `/predict-mask/` endpoint (lines 161-165):
bilinear resize of the decoded image to `IMG_SIZE`, then
`predict_mask_from_image`. -/
noncomputable def maskEndpointMask (M : UNetM) (img : Img) : Option (Ten ℝ) :=
  predictMaskFromImage M (resizeBilinear img IMG_SIZE)

/-- The mask computed by the `/predict-overlay/` endpoint (lines 180-183):
bilinear resize of the decoded image to `IMG_SIZE`, then
`predict_mask_from_image`. -/
noncomputable def overlayEndpointMask (M : UNetM) (img : Img) : Option (Ten ℝ) :=
  predictMaskFromImage M (resizeBilinear img IMG_SIZE)

/-! ### Overlay compositing (lines 185-191) -/

structure Rgba where
  r : ℚ
  g : ℚ
  b : ℚ
  a : ℚ

/-- `mask_image.point(lambda p: 120 if p > 0 else 0)` (line 186). -/
def alphaOfMaskByte (p : ℚ) : ℚ :=
  if p > 0 then 120 else 0

/-- `Image.alpha_composite(dst, src)`: Porter-Duff source-over with alphas
normalized to [0,1], in exact rational arithmetic. -/
def alphaComposite (dst src : Rgba) : Rgba :=
  let sa : ℚ := src.a / 255
  let da : ℚ := dst.a / 255
  let oa : ℚ := sa + da * (1 - sa)
  ⟨if oa = 0 then 0 else (src.r * sa + dst.r * da * (1 - sa)) / oa,
   if oa = 0 then 0 else (src.g * sa + dst.g * da * (1 - sa)) / oa,
   if oa = 0 then 0 else (src.b * sa + dst.b * da * (1 - sa)) / oa,
   oa * 255⟩

/-- One pixel of `/predict-overlay/` (lines 185-191): the resized source
pixel, made opaque RGBA, composited with the red overlay whose alpha comes
from the mask byte `m * 255`. -/
def overlayPixel (srcR srcG srcB m : ℚ) : Rgba :=
  alphaComposite ⟨srcR, srcG, srcB, 255⟩ ⟨255, 0, 0, alphaOfMaskByte (m * 255)⟩

structure RgbaImg where
  height : ℕ
  width : ℕ
  pix : ℕ → ℕ → Rgba

/-- The combined overlay image of lines 182-191, given the decoded source
image and the binary mask predicted for it. -/
def overlayImage (img : Img) (mask : ℕ → ℕ → ℚ) : RgbaImg :=
  ⟨IMG_SIZE, IMG_SIZE, fun i j =>
    let s := resizeBilinear img IMG_SIZE
    overlayPixel (s.pix i j 0) (s.pix i j 1) (s.pix i j 2) (mask i j)⟩

/-! ### Concrete parameter sets and inputs used by witnesses -/

def zeroConvP : ConvP := ⟨fun _ _ _ _ => 0, fun _ => 0⟩

def zeroBnP : BnP := ⟨fun _ => 1, fun _ => 0, fun _ => 0, fun _ => 1⟩

def zeroDoubleConvP : DoubleConvP := ⟨zeroConvP, zeroBnP, zeroConvP, zeroBnP⟩

def zeroDecoderP : DecoderP := ⟨zeroConvP, zeroDoubleConvP⟩

def zeroUNetP : UNetP :=
  ⟨zeroDoubleConvP, zeroDoubleConvP, zeroDoubleConvP, zeroDoubleConvP, zeroDoubleConvP,
   zeroDecoderP, zeroDecoderP, zeroDecoderP, zeroDecoderP, zeroConvP⟩

def defaultUNetM : UNetM := UNetM.init 3 1 8 zeroUNetP

def upEx : Ten ℝ := ⟨4, 2, 2, fun _ _ _ => 5⟩

def skipEx : Ten ℝ := ⟨4, 3, 3, fun _ _ _ => 7⟩

/-- The post-reconciliation contract of `DecoderBlock.forward` (lines 45-49):
the concatenation `torch.cat([skip, x], dim=1)` succeeds with the skip's
spatial extent, skip channels first, and the upsampled tensor placed behind a
zero border of `floor(diff/2)` on top/left and the remainder on
bottom/right. -/
def mergedSpec (u skip : Ten ℝ) : Prop :=
  ∃ m : Ten ℝ, catT skip (reconcileSkip u skip) = some m
    ∧ m.c = skip.c + u.c ∧ m.h = skip.h ∧ m.w = skip.w
    ∧ (∀ c i j, c < skip.c → m.val c i j = skip.val c i j)
    ∧ (∀ c i j, skip.c ≤ c → i < skip.h → j < skip.w →
        m.val c i j =
          if (skip.h - u.h) / 2 ≤ i ∧ i < (skip.h - u.h) / 2 + u.h
             ∧ (skip.w - u.w) / 2 ≤ j ∧ j < (skip.w - u.w) / 2 + u.w
          then u.val (c - skip.c) (i - (skip.h - u.h) / 2) (j - (skip.w - u.w) / 2)
          else 0)

/-! ### Helper lemmas -/

theorem resizeBilinear_uniform (h w : ℕ) (v : ℚ) (s i j c : ℕ) :
    (resizeBilinear (uniformImg h w v) s).pix i j c = v := by
  simp only [resizeBilinear, uniformImg]
  ring

theorem sigmoid_zero_eq : sigmoid 0 = 1 / 2 := by
  simp [sigmoid, Real.exp_zero]
  norm_num

theorem sigmoid_mono {a b : ℝ} (hab : a ≤ b) : sigmoid a ≤ sigmoid b := by
  unfold sigmoid
  have h1 : (0 : ℝ) < 1 + Real.exp (-b) := by positivity
  have h2 : 1 + Real.exp (-b) ≤ 1 + Real.exp (-a) := by
    have := Real.exp_le_exp.mpr (neg_le_neg hab)
    linarith
  exact one_div_le_one_div_of_le h1 h2

theorem sigmoid_one_gt_half : sigmoid 1 > 0.5 := by
  unfold sigmoid
  have he : Real.exp (-1) < 1 := Real.exp_lt_one_iff.mpr (by norm_num)
  have hp : (0 : ℝ) < 1 + Real.exp (-1) := by positivity
  rw [gt_iff_lt, show (0.5 : ℝ) = 1 / 2 by norm_num, div_lt_div_iff₀ (by norm_num) hp]
  linarith

theorem reconcileSkip_c (u skip : Ten ℝ) : (reconcileSkip u skip).c = u.c := by
  rw [reconcileSkip]
  split_ifs <;> rfl

theorem reconcileSkip_h (u skip : Ten ℝ) (hh : u.h ≤ skip.h) :
    (reconcileSkip u skip).h = skip.h := by
  rw [reconcileSkip]
  split_ifs with hcase
  · exact hcase.1
  · show ((u.h : ℤ) + _ + _).toNat = skip.h
    omega

theorem reconcileSkip_w (u skip : Ten ℝ) (hw : u.w ≤ skip.w) :
    (reconcileSkip u skip).w = skip.w := by
  rw [reconcileSkip]
  split_ifs with hcase
  · exact hcase.2
  · show ((u.w : ℤ) + _ + _).toNat = skip.w
    omega

theorem reconcileSkip_val (u skip : Ten ℝ) (hh : u.h ≤ skip.h) (hw : u.w ≤ skip.w)
    (c i j : ℕ) (hi : i < skip.h) (hj : j < skip.w) :
    (reconcileSkip u skip).val c i j =
      if (skip.h - u.h) / 2 ≤ i ∧ i < (skip.h - u.h) / 2 + u.h
         ∧ (skip.w - u.w) / 2 ≤ j ∧ j < (skip.w - u.w) / 2 + u.w
      then u.val c (i - (skip.h - u.h) / 2) (j - (skip.w - u.w) / 2)
      else 0 := by
  by_cases hcase : u.h = skip.h ∧ u.w = skip.w
  · rw [reconcileSkip, if_pos hcase]
    obtain ⟨h1, h2⟩ := hcase
    rw [if_pos (by omega)]
    have e1 : i - (skip.h - u.h) / 2 = i := by omega
    have e2 : j - (skip.w - u.w) / 2 = j := by omega
    rw [e1, e2]
  · rw [reconcileSkip, if_neg hcase]
    show u.aval c ((i : ℤ) - ((skip.h : ℤ) - (u.h : ℤ)).fdiv 2)
        ((j : ℤ) - ((skip.w : ℤ) - (u.w : ℤ)).fdiv 2) = _
    rw [Int.fdiv_eq_ediv _ (by norm_num), Int.fdiv_eq_ediv _ (by norm_num), Ten.aval]
    by_cases hcond : (skip.h - u.h) / 2 ≤ i ∧ i < (skip.h - u.h) / 2 + u.h
        ∧ (skip.w - u.w) / 2 ≤ j ∧ j < (skip.w - u.w) / 2 + u.w
    · rw [if_pos (by omega), if_pos hcond]
      congr 1 <;> omega
    · rw [if_neg (by omega), if_neg hcond]

theorem conv2d_dims (i o k p : ℕ) (P : ConvP) (x : Ten ℝ) :
    (conv2d i o k p P x).map dims = conv2dShape i o k p (dims x) := by
  rcases x with ⟨c, h, w, v⟩
  by_cases hc : c = i <;> simp [conv2d, conv2dShape, dims, hc]

theorem batchNorm_dims (n : ℕ) (P : BnP) (x : Ten ℝ) :
    (batchNorm n P x).map dims = bnShape n (dims x) := by
  rcases x with ⟨c, h, w, v⟩
  by_cases hc : c = n <;> simp [batchNorm, bnShape, dims, hc]

theorem relu_dims (x : Ten ℝ) : dims (relu x) = dims x :=
  rfl

theorem maxPool2_dims (x : Ten ℝ) : dims (maxPool2 x) = maxPool2Shape (dims x) :=
  rfl

theorem convTranspose2_dims (i o : ℕ) (P : ConvP) (x : Ten ℝ) :
    (convTranspose2 i o P x).map dims = convTranspose2Shape i o (dims x) := by
  rcases x with ⟨c, h, w, v⟩
  by_cases hc : c = i <;> simp [convTranspose2, convTranspose2Shape, dims, hc]

theorem reconcileSkip_dims (u k : Ten ℝ) :
    dims (reconcileSkip u k) = reconcileShape (dims u) (dims k) := by
  rcases u with ⟨uc, uh, uw, uv⟩
  rcases k with ⟨kc, kh, kw, kv⟩
  by_cases hc : uh = kh ∧ uw = kw <;>
    simp [reconcileSkip, reconcileShape, padT, dims, hc]

theorem catT_dims (a b : Ten ℝ) :
    (catT a b).map dims = catShape (dims a) (dims b) := by
  rcases a with ⟨ac, ah, aw, av⟩
  rcases b with ⟨bc, bh, bw, bv⟩
  by_cases hc : ah = bh ∧ aw = bw <;> simp [catT, catShape, dims, hc]

theorem doubleConv_dims (m : DoubleConvM) (x : Ten ℝ) :
    (m.forward x).map dims = doubleConvShape m.inCh m.outCh (dims x) := by
  rw [DoubleConvM.forward, doubleConvShape]
  have f1 := conv2d_dims m.inCh m.outCh 3 1 m.par.conv1 x
  cases h1 : conv2d m.inCh m.outCh 3 1 m.par.conv1 x with
  | none =>
    rw [h1] at f1
    simp only [Option.map_none'] at f1
    simp only [h1, Option.bind_eq_bind, Option.none_bind, Option.map_none', ← f1]
  | some a1 =>
    rw [h1] at f1
    simp only [Option.map_some'] at f1
    have f2 := batchNorm_dims m.outCh m.par.bn1 a1
    cases h2 : batchNorm m.outCh m.par.bn1 a1 with
    | none =>
      rw [h2] at f2
      simp only [Option.map_none'] at f2
      simp only [h1, h2, Option.bind_eq_bind, Option.some_bind, Option.none_bind,
        Option.map_none', ← f1, ← f2]
    | some a2 =>
      rw [h2] at f2
      simp only [Option.map_some'] at f2
      have f3 := conv2d_dims m.outCh m.outCh 3 1 m.par.conv2 (relu a2)
      rw [relu_dims] at f3
      cases h3 : conv2d m.outCh m.outCh 3 1 m.par.conv2 (relu a2) with
      | none =>
        rw [h3] at f3
        simp only [Option.map_none'] at f3
        simp only [h1, h2, h3, Option.bind_eq_bind, Option.some_bind, Option.none_bind,
          Option.map_none', ← f1, ← f2, ← f3]
      | some b1 =>
        rw [h3] at f3
        simp only [Option.map_some'] at f3
        have f4 := batchNorm_dims m.outCh m.par.bn2 b1
        cases h4 : batchNorm m.outCh m.par.bn2 b1 with
        | none =>
          rw [h4] at f4
          simp only [Option.map_none'] at f4
          simp only [h1, h2, h3, h4, Option.bind_eq_bind, Option.some_bind,
            Option.none_bind, Option.map_none', ← f1, ← f2, ← f3, ← f4]
        | some b2 =>
          rw [h4] at f4
          simp only [Option.map_some'] at f4
          simp only [h1, h2, h3, h4, Option.bind_eq_bind, Option.some_bind,
            Option.pure_def, Option.map_some', relu_dims, ← f1, ← f2, ← f3, ← f4]

theorem encoder_dims (m : EncoderBlockM) (x : Ten ℝ) :
    (m.forward x).map dims = encShape m.dc.inCh m.dc.outCh (dims x) := by
  rw [EncoderBlockM.forward, encShape, ← maxPool2_dims]
  exact doubleConv_dims m.dc (maxPool2 x)

theorem decoder_dims (m : DecoderBlockM) (x skip : Ten ℝ) :
    (m.forward x skip).map dims
      = decShape m.inCh m.outCh m.dc.inCh m.dc.outCh (dims x) (dims skip) := by
  rw [DecoderBlockM.forward, decShape]
  have f1 := convTranspose2_dims m.inCh m.outCh m.upPar x
  cases h1 : convTranspose2 m.inCh m.outCh m.upPar x with
  | none =>
    rw [h1] at f1
    simp only [Option.map_none'] at f1
    simp only [h1, Option.bind_eq_bind, Option.none_bind, Option.map_none', ← f1]
  | some u =>
    rw [h1] at f1
    simp only [Option.map_some'] at f1
    have f2 := catT_dims skip (reconcileSkip u skip)
    rw [reconcileSkip_dims] at f2
    cases h2 : catT skip (reconcileSkip u skip) with
    | none =>
      rw [h2] at f2
      simp only [Option.map_none'] at f2
      simp only [h1, h2, Option.bind_eq_bind, Option.some_bind, Option.none_bind,
        Option.map_none', ← f1, ← f2]
    | some merged =>
      rw [h2] at f2
      simp only [Option.map_some'] at f2
      simp only [h1, h2, Option.bind_eq_bind, Option.some_bind, ← f1, ← f2,
        doubleConv_dims]

theorem unet_dims (inC outC base : ℕ) (θ : UNetP) (x : Ten ℝ) :
    ((UNetM.init inC outC base θ).forward x).map dims
      = unetShape inC outC base (dims x) := by
  rw [UNetM.forward, unetShape]
  have f1 : ((UNetM.init inC outC base θ).inc.forward x).map dims
      = doubleConvShape inC base (dims x) := doubleConv_dims _ x
  cases h1 : (UNetM.init inC outC base θ).inc.forward x with
  | none =>
    rw [h1] at f1
    simp only [Option.map_none'] at f1
    simp only [h1, Option.bind_eq_bind, Option.none_bind, Option.map_none', ← f1]
  | some x1 =>
    rw [h1] at f1
    simp only [Option.map_some'] at f1
    have f2 : ((UNetM.init inC outC base θ).down1.forward x1).map dims
        = encShape base (base * 2) (dims x1) := encoder_dims _ x1
    cases h2 : (UNetM.init inC outC base θ).down1.forward x1 with
    | none =>
      rw [h2] at f2
      simp only [Option.map_none'] at f2
      simp only [h1, h2, Option.bind_eq_bind, Option.some_bind, Option.none_bind,
        Option.map_none', ← f1, ← f2]
    | some x2 =>
      rw [h2] at f2
      simp only [Option.map_some'] at f2
      have f3 : ((UNetM.init inC outC base θ).down2.forward x2).map dims
          = encShape (base * 2) (base * 4) (dims x2) := encoder_dims _ x2
      cases h3 : (UNetM.init inC outC base θ).down2.forward x2 with
      | none =>
        rw [h3] at f3
        simp only [Option.map_none'] at f3
        simp only [h1, h2, h3, Option.bind_eq_bind, Option.some_bind, Option.none_bind,
          Option.map_none', ← f1, ← f2, ← f3]
      | some x3 =>
        rw [h3] at f3
        simp only [Option.map_some'] at f3
        have f4 : ((UNetM.init inC outC base θ).down3.forward x3).map dims
            = encShape (base * 4) (base * 8) (dims x3) := encoder_dims _ x3
        cases h4 : (UNetM.init inC outC base θ).down3.forward x3 with
        | none =>
          rw [h4] at f4
          simp only [Option.map_none'] at f4
          simp only [h1, h2, h3, h4, Option.bind_eq_bind, Option.some_bind,
            Option.none_bind, Option.map_none', ← f1, ← f2, ← f3, ← f4]
        | some x4 =>
          rw [h4] at f4
          simp only [Option.map_some'] at f4
          have f5 : ((UNetM.init inC outC base θ).down4.forward x4).map dims
              = encShape (base * 8) (base * 16) (dims x4) := encoder_dims _ x4
          cases h5 : (UNetM.init inC outC base θ).down4.forward x4 with
          | none =>
            rw [h5] at f5
            simp only [Option.map_none'] at f5
            simp only [h1, h2, h3, h4, h5, Option.bind_eq_bind, Option.some_bind,
              Option.none_bind, Option.map_none', ← f1, ← f2, ← f3, ← f4, ← f5]
          | some x5 =>
            rw [h5] at f5
            simp only [Option.map_some'] at f5
            have f6 : ((UNetM.init inC outC base θ).up1.forward x5 x4).map dims
                = decShape (base * 16) (base * 8) (base * 16) (base * 8)
                    (dims x5) (dims x4) := decoder_dims _ x5 x4
            cases h6 : (UNetM.init inC outC base θ).up1.forward x5 x4 with
            | none =>
              rw [h6] at f6
              simp only [Option.map_none'] at f6
              simp only [h1, h2, h3, h4, h5, h6, Option.bind_eq_bind, Option.some_bind,
                Option.none_bind, Option.map_none', ← f1, ← f2, ← f3, ← f4, ← f5, ← f6]
            | some y1 =>
              rw [h6] at f6
              simp only [Option.map_some'] at f6
              have f7 : ((UNetM.init inC outC base θ).up2.forward y1 x3).map dims
                  = decShape (base * 8) (base * 4) (base * 8) (base * 4)
                      (dims y1) (dims x3) := decoder_dims _ y1 x3
              cases h7 : (UNetM.init inC outC base θ).up2.forward y1 x3 with
              | none =>
                rw [h7] at f7
                simp only [Option.map_none'] at f7
                simp only [h1, h2, h3, h4, h5, h6, h7, Option.bind_eq_bind,
                  Option.some_bind, Option.none_bind, Option.map_none',
                  ← f1, ← f2, ← f3, ← f4, ← f5, ← f6, ← f7]
              | some y2 =>
                rw [h7] at f7
                simp only [Option.map_some'] at f7
                have f8 : ((UNetM.init inC outC base θ).up3.forward y2 x2).map dims
                    = decShape (base * 4) (base * 2) (base * 4) (base * 2)
                        (dims y2) (dims x2) := decoder_dims _ y2 x2
                cases h8 : (UNetM.init inC outC base θ).up3.forward y2 x2 with
                | none =>
                  rw [h8] at f8
                  simp only [Option.map_none'] at f8
                  simp only [h1, h2, h3, h4, h5, h6, h7, h8, Option.bind_eq_bind,
                    Option.some_bind, Option.none_bind, Option.map_none',
                    ← f1, ← f2, ← f3, ← f4, ← f5, ← f6, ← f7, ← f8]
                | some y3 =>
                  rw [h8] at f8
                  simp only [Option.map_some'] at f8
                  have f9 : ((UNetM.init inC outC base θ).up4.forward y3 x1).map dims
                      = decShape (base * 2) base (base * 2) base
                          (dims y3) (dims x1) := decoder_dims _ y3 x1
                  cases h9 : (UNetM.init inC outC base θ).up4.forward y3 x1 with
                  | none =>
                    rw [h9] at f9
                    simp only [Option.map_none'] at f9
                    simp only [h1, h2, h3, h4, h5, h6, h7, h8, h9, Option.bind_eq_bind,
                      Option.some_bind, Option.none_bind, Option.map_none',
                      ← f1, ← f2, ← f3, ← f4, ← f5, ← f6, ← f7, ← f8, ← f9]
                  | some y4 =>
                    rw [h9] at f9
                    simp only [Option.map_some'] at f9
                    have f10 : (conv2d (UNetM.init inC outC base θ).outc.inCh
                        (UNetM.init inC outC base θ).outc.outCh
                        (UNetM.init inC outC base θ).outc.k 0
                        (UNetM.init inC outC base θ).outc.par y4).map dims
                        = conv2dShape base outC 1 0 (dims y4) :=
                      conv2d_dims _ _ _ _ _ y4
                    simp only [h1, h2, h3, h4, h5, h6, h7, h8, h9, Option.bind_eq_bind,
                      Option.some_bind, ← f1, ← f2, ← f3, ← f4, ← f5, ← f6, ← f7,
                      ← f8, ← f9, f10]

/-! ### Claim theorems -/

/-- C3: for every valid input image of any resolution or aspect ratio, the
preprocessor resizes bilinearly to the fixed square side (128), scales 8-bit
values into [0,1] by dividing by 255, then normalizes per channel by the
fixed mean and standard deviation, and its output tensor shape is exactly
(3, 128, 128). -/
theorem preprocess_shape_and_values (img : Img) :
    ((preprocessChw img).c, (preprocessChw img).h, (preprocessChw img).w)
      = (3, IMG_SIZE, IMG_SIZE)
    ∧ ∀ (c : Fin 3) (i j : Fin IMG_SIZE),
        (preprocessChw img).val c i j
          = ((resizeBilinear img IMG_SIZE).pix i j c / 255 - IMG_MEAN.getD c 0)
              / IMG_STD.getD c 0 :=
  ⟨rfl, fun _ _ _ => rfl⟩

/-- C6: a uniform gray 256x256 image of pixel value 128, preprocessed with
mean [0.485, 0.456, 0.406], std [0.229, 0.224, 0.225] and side 128, yields a
tensor whose every channel-c value is (128/255 - mean_c)/std_c, because
bilinear resizing of a uniform image is the identity on its value. -/
theorem preprocess_uniform_gray (c : Fin 3) (i j : Fin IMG_SIZE) :
    (preprocessChw (uniformImg 256 256 128)).val c i j
      = (128 / 255 - IMG_MEAN.getD c 0) / IMG_STD.getD c 0 := by
  show ((resizeBilinear (uniformImg 256 256 128) IMG_SIZE).pix i j c / 255
      - IMG_MEAN.getD c 0) / IMG_STD.getD c 0 = _
  rw [resizeBilinear_uniform]

/-- C4: binarization is a strict greater-than test against 0.5: a logit of 0
has sigmoid exactly 0.5 and is classified background, and a pixel is
foreground exactly when its sigmoid is strictly greater than 0.5. -/
theorem threshold_boundary (x : ℝ) :
    sigmoid 0 = 0.5 ∧ thresholdMask 0 = 0 ∧ (thresholdMask x = 1 ↔ sigmoid x > 0.5) := by
  refine ⟨by rw [sigmoid_zero_eq]; norm_num, ?_, ?_⟩
  · rw [thresholdMask, if_neg]
    rw [sigmoid_zero_eq]
    norm_num
  · unfold thresholdMask
    split_ifs with h
    · simp [h]
    · simp [h]

/-- C5: sigmoid-then-threshold is monotone in the logit: if a ≤ b and a is
classified foreground then b is classified foreground. -/
theorem threshold_monotone (a b : ℝ) (hab : a ≤ b) (ha : thresholdMask a = 1) :
    thresholdMask b = 1 := by
  have hsa : sigmoid a > 0.5 := by
    by_contra h
    rw [thresholdMask, if_neg h] at ha
    exact zero_ne_one ha
  have hsb : sigmoid b > 0.5 := lt_of_lt_of_le hsa (sigmoid_mono hab)
  rw [thresholdMask, if_pos hsb]

theorem threshold_monotone_witness : (1 : ℝ) ≤ 2 ∧ thresholdMask 2 = 1 :=
  ⟨by norm_num,
   threshold_monotone 1 2 (by norm_num)
     (by rw [thresholdMask, if_pos sigmoid_one_gt_half])⟩

/-- C7: in overlay mode, a pixel whose mask value is 0 is the unmodified
source pixel (opaque), a pixel whose mask value is 1 is the alpha blend of
the red overlay (255,0,0) at alpha 120/255 with the source pixel, and the
composited image has the resized 128x128 extent. -/
theorem overlay_compositing (r g b : ℚ) (img : Img) (mask : ℕ → ℕ → ℚ) :
    overlayPixel r g b 0 = ⟨r, g, b, 255⟩
    ∧ overlayPixel r g b 1
        = ⟨(120 / 255) * 255 + (1 - 120 / 255) * r,
           (1 - 120 / 255) * g, (1 - 120 / 255) * b, 255⟩
    ∧ (overlayImage img mask).height = IMG_SIZE
    ∧ (overlayImage img mask).width = IMG_SIZE := by
  refine ⟨?_, ?_, rfl, rfl⟩
  · rw [overlayPixel, alphaComposite, alphaOfMaskByte]
    norm_num
  · rw [overlayPixel, alphaComposite, alphaOfMaskByte]
    norm_num
    exact ⟨mul_comm r _, mul_comm g _, mul_comm b _⟩

/-- C8: inference is deterministic: two runs of the mask pipeline on the same
decoded image with the same loaded parameter set produce identical masks;
the embedding of lines 148-154 is a pure function with no randomness. -/
theorem inference_deterministic (M1 M2 : UNetM) (i1 i2 : Img)
    (hM : M1 = M2) (hi : i1 = i2) :
    predictMaskFromImage M1 i1 = predictMaskFromImage M2 i2 := by
  rw [hM, hi]

theorem inference_deterministic_witness :
    predictMaskFromImage defaultUNetM (uniformImg 1 1 0)
      = predictMaskFromImage defaultUNetM (uniformImg 1 1 0) :=
  inference_deterministic defaultUNetM defaultUNetM (uniformImg 1 1 0) (uniformImg 1 1 0)
    rfl rfl

/-- C10: the mask-mode endpoint and the overlay-mode endpoint compute the
identical binary mask: both bilinear-resize the decoded image to 128x128 and
run the same `predict_mask_from_image`. -/
theorem mask_overlay_same_mask (M : UNetM) (img : Img) :
    maskEndpointMask M img = overlayEndpointMask M img :=
  rfl

/-- C2: in the decoder's size-reconciliation step, whenever the upsampled
tensor is no larger than its paired skip tensor, the upsampled tensor is
zero-padded by floor(diff/2) on one side and the remainder on the other per
axis, the resulting spatial size matches the skip exactly, and the
concatenation puts the skip channels first and the (padded) upsampled
channels after them. -/
theorem decoder_pad_concat (u skip : Ten ℝ) (hh : u.h ≤ skip.h) (hw : u.w ≤ skip.w) :
    mergedSpec u skip := by
  have hch := reconcileSkip_c u skip
  have hhh := reconcileSkip_h u skip hh
  have hwh := reconcileSkip_w u skip hw
  refine ⟨⟨skip.c + (reconcileSkip u skip).c, skip.h, skip.w,
    fun c i j => if c < skip.c then skip.val c i j
      else (reconcileSkip u skip).val (c - skip.c) i j⟩, ?_, ?_, rfl, rfl, ?_, ?_⟩
  · rw [catT, if_pos ⟨hhh.symm, hwh.symm⟩]
  · rw [hch]
  · intro c i j hc
    simp only [if_pos hc]
  · intro c i j hc hi hj
    simp only [if_neg (Nat.not_lt.mpr hc)]
    exact reconcileSkip_val u skip hh hw (c - skip.c) i j hi hj

theorem decoder_pad_concat_witness :
    upEx.h ≤ skipEx.h ∧ upEx.w ≤ skipEx.w ∧ mergedSpec upEx skipEx :=
  ⟨by decide, by decide, decoder_pad_concat upEx skipEx (by decide) (by decide)⟩

/-- C1: the UNet is assembled as a stem DoubleConv taking the 3 input
channels to base_channels, four EncoderBlocks doubling channels up to
base*16, four DecoderBlocks halving channels back down to base, and a final
kernel-size-1 convolution to a single output channel; with the default
base 8 the forward pass on a 3x128x128 input threads the four encoder
outputs as skips deepest-first through every channel guard and produces a
1x128x128 logit map. -/
theorem unet_assembly (b : ℕ) (θ : UNetP) :
    ((UNetM.init 3 1 b θ).inc.inCh = 3 ∧ (UNetM.init 3 1 b θ).inc.outCh = b)
    ∧ ((UNetM.init 3 1 b θ).down1.dc.inCh = b
        ∧ (UNetM.init 3 1 b θ).down1.dc.outCh = b * 2)
    ∧ ((UNetM.init 3 1 b θ).down2.dc.inCh = b * 2
        ∧ (UNetM.init 3 1 b θ).down2.dc.outCh = b * 4)
    ∧ ((UNetM.init 3 1 b θ).down3.dc.inCh = b * 4
        ∧ (UNetM.init 3 1 b θ).down3.dc.outCh = b * 8)
    ∧ ((UNetM.init 3 1 b θ).down4.dc.inCh = b * 8
        ∧ (UNetM.init 3 1 b θ).down4.dc.outCh = b * 16)
    ∧ ((UNetM.init 3 1 b θ).up1.inCh = b * 16 ∧ (UNetM.init 3 1 b θ).up1.outCh = b * 8)
    ∧ ((UNetM.init 3 1 b θ).up2.inCh = b * 8 ∧ (UNetM.init 3 1 b θ).up2.outCh = b * 4)
    ∧ ((UNetM.init 3 1 b θ).up3.inCh = b * 4 ∧ (UNetM.init 3 1 b θ).up3.outCh = b * 2)
    ∧ ((UNetM.init 3 1 b θ).up4.inCh = b * 2 ∧ (UNetM.init 3 1 b θ).up4.outCh = b)
    ∧ ((UNetM.init 3 1 b θ).outc.inCh = b ∧ (UNetM.init 3 1 b θ).outc.outCh = 1
        ∧ (UNetM.init 3 1 b θ).outc.k = 1)
    ∧ ((UNetM.init 3 1 8 θ).forward ⟨3, 128, 128, fun _ _ _ => 0⟩).map dims
        = some (1, 128, 128) :=
  ⟨⟨rfl, rfl⟩, ⟨rfl, rfl⟩, ⟨rfl, rfl⟩, ⟨rfl, rfl⟩, ⟨rfl, rfl⟩, ⟨rfl, rfl⟩,
   ⟨rfl, rfl⟩, ⟨rfl, rfl⟩, ⟨rfl, rfl⟩, ⟨rfl, rfl, rfl⟩,
   (unet_dims 3 1 8 θ ⟨3, 128, 128, fun _ _ _ => 0⟩).trans (by decide)⟩

/-- C9: a request whose declared content type is not `image/...` is answered
with the 400 rejection independently of the uploaded bytes and of the loaded
model, before any core computation; a decode failure or an internal shape
failure inside the core is reported as the single 500 "Prediction failed"
response; and in every case the loaded parameters are returned unchanged. -/
theorem request_boundary (M : UNetM) (req : UploadReq) :
    (predictSegmentation M req).2 = M
    ∧ (isImageType req.contentType = false →
        (predictSegmentation M req).1
          = ApiResult.failure 400 "Invalid file type. Please upload an image."
        ∧ ∀ (M2 : UNetM) (d2 : Option Img),
            (predictSegmentation M2 ⟨req.contentType, d2⟩).1
              = ApiResult.failure 400 "Invalid file type. Please upload an image.")
    ∧ (isImageType req.contentType = true → req.decoded = none →
        (predictSegmentation M req).1 = ApiResult.failure 500 "Prediction failed")
    ∧ (∀ img, isImageType req.contentType = true → req.decoded = some img →
        predictMaskFromImage M img = none →
        (predictSegmentation M req).1 = ApiResult.failure 500 "Prediction failed") := by
  obtain ⟨ct, dec⟩ := req
  by_cases hb : isImageType ct
  · refine ⟨?_, ?_, ?_, ?_⟩
    · cases dec with
      | none => simp [predictSegmentation, hb]
      | some img =>
        cases hm : predictMaskFromImage M img with
        | none => simp [predictSegmentation, hb, hm]
        | some mask => simp [predictSegmentation, hb, hm]
    · intro hfalse
      exact absurd hfalse (by simp [hb])
    · intro _ hdec
      subst hdec
      simp [predictSegmentation, hb]
    · intro img _ hdec hm
      subst hdec
      simp [predictSegmentation, hb, hm]
  · refine ⟨?_, ?_, ?_, ?_⟩
    · simp [predictSegmentation, hb]
    · intro _
      exact ⟨by simp [predictSegmentation, hb], fun M2 d2 => by simp [predictSegmentation, hb]⟩
    · intro htrue
      exact absurd htrue (by simpa using hb)
    · intro img htrue
      exact absurd htrue (by simpa using hb)

theorem request_boundary_witness :
    (isImageType "text/plain" = false)
    ∧ (predictSegmentation defaultUNetM ⟨"text/plain", none⟩).1
        = ApiResult.failure 400 "Invalid file type. Please upload an image."
    ∧ (isImageType "image/png" = true)
    ∧ (predictSegmentation defaultUNetM ⟨"image/png", none⟩).1
        = ApiResult.failure 500 "Prediction failed" := by
  have h1 : (isImageType "text/plain" = false) := by decide
  have h2 : (isImageType "image/png" = true) := by decide
  exact ⟨h1,
    ((request_boundary defaultUNetM ⟨"text/plain", none⟩).2.1 h1).1, h2,
    (request_boundary defaultUNetM ⟨"image/png", none⟩).2.2.1 h2 rfl⟩

end CarotidSeg
